import Mathlib

/-!
Shallow embedding of `src/ascii-img-render.py`: the grid-fitting and
rasterization pipeline of the ascii-img-renderer tool.

Python exceptions are modelled by the `PyErr` type; fallible Python code is
embedded as `Except PyErr`.  Python integers are `Int` (Python `//` is floor
division, embedded as `Int.fdiv`).  Python strings are `String` / `List Char`;
the ASCII fragments of Python's `str.lower`, `str.split`, `str.lstrip` and
`int(...)` parsing (optional surrounding whitespace, optional sign, optional
`0x` prefix in base 16, underscore digit separators) are embedded explicitly.
-/

namespace AsciiImgRender

/-- The Python exceptions the script can raise in the embedded fragment:
`argparse.ArgumentTypeError` (raised by `parse_resolution` and `hex_to_rgb`),
`ValueError` (raised by `int(_, 16)` on a malformed literal),
`ZeroDivisionError` (raised by `//` with a zero divisor), and
`sys.exit(1)` after printing a message. -/
inductive PyErr where
  | ArgumentTypeError (msg : String)
  | ValueError
  | ZeroDivisionError
  | SysExit (msg : String)
deriving DecidableEq

deriving instance DecidableEq for Except

/-- ASCII whitespace accepted by Python's `int()` around a numeric literal
(space, tab, newline, vertical tab, form feed, carriage return). -/
def isPySpace (c : Char) : Bool :=
  c.toNat = 32 || c.toNat = 9 || c.toNat = 10 || c.toNat = 11 ||
    c.toNat = 12 || c.toNat = 13

/-- Decimal digit (`0`-`9`), as accepted by Python `int(s)` in base 10. -/
def isDecDigit (c : Char) : Bool :=
  48 ≤ c.toNat && c.toNat ≤ 57

/-- Hexadecimal digit (`0`-`9`, `a`-`f`, `A`-`F`), as accepted by
Python `int(s, 16)`. -/
def isHexDigit (c : Char) : Bool :=
  (48 ≤ c.toNat && c.toNat ≤ 57) || (97 ≤ c.toNat && c.toNat ≤ 102) ||
    (65 ≤ c.toNat && c.toNat ≤ 70)

/-- Numeric value of a (decimal or hexadecimal) digit character. -/
def digitVal (c : Char) : Nat :=
  if c.toNat ≤ 57 then c.toNat - 48
  else if c.toNat ≤ 70 then c.toNat - 55
  else c.toNat - 87

/-- Strip leading and trailing Python whitespace from a character list,
as `int()` does before parsing. -/
def stripWs (l : List Char) : List Char :=
  ((l.dropWhile isPySpace).reverse.dropWhile isPySpace).reverse

/-- Consume an optional single leading sign, returning the sign factor and
the rest, as in a Python integer literal. -/
def stripSign : List Char → Int × List Char
  | [] => (1, [])
  | c :: r => if c = '+' then (1, r) else if c = '-' then (-1, r) else (1, c :: r)

/-- Drop an optional `0x` / `0X` base prefix (base 16 only), together with the
single underscore Python permits right after the prefix. -/
def dropPrefix0x : List Char → List Char
  | a :: b :: r =>
    if a = '0' ∧ (b = 'x' ∨ b = 'X') then
      match r with
      | c :: r2 => if c = '_' then r2 else c :: r2
      | [] => []
    else a :: b :: r
  | l => l

/-- Tail of a Python digit run: digits with single underscores allowed only
between two digits. -/
def digitsTail (isD : Char → Bool) : List Char → Bool
  | [] => true
  | c :: r =>
    if c = '_' then
      match r with
      | d :: r2 => isD d && digitsTail isD r2
      | [] => false
    else isD c && digitsTail isD r

/-- A valid Python digit run: nonempty, starts with a digit, underscores only
between digits. -/
def digitsOk (isD : Char → Bool) : List Char → Bool
  | [] => false
  | c :: r => isD c && digitsTail isD r

/-- Value of a digit run in base `b`, ignoring underscore separators. -/
def digitsVal (b : Nat) (l : List Char) : Nat :=
  l.foldl (fun acc c => if c = '_' then acc else acc * b + digitVal c) 0

/-- Embedding of Python `int(s)` (base 10) on the ASCII fragment: optional
whitespace, optional sign, then a digit run.  `none` models `ValueError`. -/
def pyInt10 (l : List Char) : Option Int :=
  let l1 := stripWs l
  let p := stripSign l1
  if digitsOk isDecDigit p.2 then some (p.1 * (digitsVal 10 p.2 : Nat)) else none

/-- Embedding of Python `int(s, 16)` on the ASCII fragment: optional
whitespace, optional sign, optional `0x` prefix, then a hex digit run.
`none` models `ValueError`. -/
def pyInt16 (l : List Char) : Option Int :=
  let l1 := stripWs l
  let p := stripSign l1
  let l2 := dropPrefix0x p.2
  if digitsOk isHexDigit l2 then some (p.1 * (digitsVal 16 l2 : Nat)) else none

/-- ASCII fragment of Python `str.lower` applied to one character. -/
def pyLowerChar (c : Char) : Char :=
  if 65 ≤ c.toNat ∧ c.toNat ≤ 90 then Char.ofNat (c.toNat + 32) else c

/-- Python `str.split('x')`: split on every occurrence of `'x'`, keeping
empty fragments. -/
def splitX : List Char → List (List Char)
  | [] => [[]]
  | c :: r =>
    if c = 'x' then [] :: splitX r
    else
      match splitX r with
      | h :: t => (c :: h) :: t
      | [] => [[c]]

/-- The error message of `parse_resolution` (source lines 42-44). -/
def resolutionErrMsg : String :=
  "Resolution must be in format WIDTHxHEIGHT, e.g. 1920x1080"

/-- Embedding of `parse_resolution` (source lines 37-44):
`w, h = map(int, res_str.lower().split('x'))`; any exception is converted to
`argparse.ArgumentTypeError`. -/
def parse_resolution (s : String) : Except PyErr (Int × Int) :=
  match splitX (s.data.map pyLowerChar) with
  | [a, b] =>
    match pyInt10 a, pyInt10 b with
    | some w, some h => .ok (w, h)
    | _, _ => .error (.ArgumentTypeError resolutionErrMsg)
  | _ => .error (.ArgumentTypeError resolutionErrMsg)

/-- Each character doubled in place: `''.join([c*2 for c in hex_str])`
(source line 49). -/
def doubleChars : List Char → List Char
  | [] => []
  | c :: r => c :: c :: doubleChars r

/-- Body of `hex_to_rgb` (source lines 48-52) after the `lstrip('#')` step:
double a length-3 token, reject any other length than 6 with
`ArgumentTypeError`, then parse the three 2-character groups with
`int(_, 16)`. -/
def hex_to_rgb_core (cs0 : List Char) : Except PyErr (Int × Int × Int) :=
  let cs := if cs0.length = 3 then doubleChars cs0 else cs0
  if cs.length ≠ 6 then
    .error (.ArgumentTypeError ("Invalid color format: " ++ String.mk cs))
  else
    match pyInt16 (cs.take 2), pyInt16 ((cs.drop 2).take 2),
        pyInt16 ((cs.drop 4).take 2) with
    | some r, some g, some b => .ok (r, g, b)
    | _, _, _ => .error .ValueError

/-- Embedding of `hex_to_rgb` (source lines 46-52): strip all leading `#`
(Python `lstrip('#')`), then `hex_to_rgb_core`. -/
def hex_to_rgb (s : String) : Except PyErr (Int × Int × Int) :=
  hex_to_rgb_core (s.data.dropWhile (fun c => c = '#'))

/-- Embedding of the `PRESETS` dict (source lines 31-35) combined with
argparse's `choices=PRESETS.keys()` (source line 60): any other name is
rejected (`none`). -/
def PRESETS (s : String) : Option (Int × Int) :=
  if s = "1080p" then some (1920, 1080)
  else if s = "720p" then some (1280, 720)
  else if s = "4k" then some (3840, 2160)
  else none

/-- Python `//` on ints: floor division, raising `ZeroDivisionError` on a
zero divisor. -/
def pydiv (a b : Int) : Except PyErr Int :=
  if b = 0 then .error .ZeroDivisionError else .ok (Int.fdiv a b)

/-- The grid size computed for the external converter (source line 116):
`(canvas_w // char_w, canvas_h // char_h)`, columns first. -/
def gridDims (cw ch cellw cellh : Int) : Except PyErr (Int × Int) := do
  let c ← pydiv cw cellw
  let r ← pydiv ch cellh
  return (c, r)

/-- The `--dimensions` argument string passed to `ascii-image-converter`
(source line 116): `f'{canvas_w // char_w},{canvas_h // char_h}'`. -/
def asciiDimsArg (cw ch cellw cellh : Int) : Except PyErr String := do
  let p ← gridDims cw ch cellw cellh
  return toString p.1 ++ "," ++ toString p.2

/-- Cell metrics from the reference-glyph bounding box (source lines 110-111):
`char_w, char_h = bbox[2] - bbox[0], bbox[3] - bbox[1]`.  No validation is
performed between the measurement and the grid-fitting division. -/
def cellMetrics (x0 y0 x1 y1 : Int) : Int × Int :=
  (x1 - x0, y1 - y0)

/-- The grid size as computed straight from the measured bounding box:
composition of `cellMetrics` (line 111) and the divisions on line 116,
with nothing in between. -/
def gridFromBbox (cw ch x0 y0 x1 y1 : Int) : Except PyErr (Int × Int) :=
  gridDims cw ch (cellMetrics x0 y0 x1 y1).1 (cellMetrics x0 y0 x1 y1).2

/-- One call to `draw.text` (source line 132): position, text, font, fill. -/
structure DrawCall (F : Type) where
  x : Int
  y : Int
  text : String
  font : F
  fill : Int × Int × Int
deriving DecidableEq

/-- The drawing loop (source lines 131-132):
`for i, line in enumerate(lines): draw.text((0, i * char_h), line, ...)`,
with `i` the running index starting at `start`. -/
def drawLoop (F : Type) (char_h : Int) (font : F) (fg : Int × Int × Int) :
    Nat → List String → List (DrawCall F)
  | _, [] => []
  | i, line :: rest =>
    ⟨0, (i : Int) * char_h, line, font, fg⟩ ::
      drawLoop F char_h font fg (i + 1) rest

/-- The rasterizer: the full list of `draw.text` calls issued for a text
grid (source lines 131-132), `enumerate` starting at 0. -/
def drawAscii (F : Type) (lines : List String) (char_h : Int) (font : F)
    (fg : Int × Int × Int) : List (DrawCall F) :=
  drawLoop F char_h font fg 0 lines

/-- The filesystem facts the output-path checks consult (source lines 82-95):
whether the parent directory exists, whether it is writable, and which paths
are existing directories. -/
structure FS where
  parentExists : Bool
  parentWritable : Bool
  isExistingDir : String → Bool

/-- Embedding of the output-path validation (source lines 82-95): exit if the
parent directory does not exist; if it is not writable, warn and redirect to
`cwd/name` (the returned Bool records that the warning fallback was taken);
exit if the (possibly redirected) path is an existing directory. -/
def resolveOutput (fs : FS) (parent name cwd : String) :
    Except PyErr (String × Bool) :=
  if fs.parentExists = false then
    .error (.SysExit ("Output directory " ++ parent ++ " does not exist"))
  else
    let pw :=
      if fs.parentWritable = false then (cwd ++ "/" ++ name, true)
      else (parent ++ "/" ++ name, false)
    if fs.isExistingDir pw.1 then
      .error (.SysExit ("Invalid path: " ++ pw.1 ++ " is a directory"))
    else .ok pw

/-! ### Character-level helper lemmas -/

theorem isHexDigit_not_space {c : Char} (h : isHexDigit c = true) :
    isPySpace c = false := by
  simp only [isHexDigit, Bool.or_eq_true, Bool.and_eq_true, decide_eq_true_eq] at h
  simp only [isPySpace, Bool.or_eq_false_iff, decide_eq_false_iff_not]
  omega

theorem isDecDigit_not_space {c : Char} (h : isDecDigit c = true) :
    isPySpace c = false := by
  simp only [isDecDigit, Bool.and_eq_true, decide_eq_true_eq] at h
  simp only [isPySpace, Bool.or_eq_false_iff, decide_eq_false_iff_not]
  omega

theorem ne_of_isHexDigit {c d : Char} (h : isHexDigit c = true)
    (hd : isHexDigit d = false) : c ≠ d := by
  intro he
  rw [he, hd] at h
  cases h

theorem ne_of_isDecDigit {c d : Char} (h : isDecDigit c = true)
    (hd : isDecDigit d = false) : c ≠ d := by
  intro he
  rw [he, hd] at h
  cases h

theorem pyLowerChar_of_digit {c : Char} (h : isDecDigit c = true) :
    pyLowerChar c = c := by
  simp only [isDecDigit, Bool.and_eq_true, decide_eq_true_eq] at h
  unfold pyLowerChar
  rw [if_neg]
  omega

/-! ### Python int-parsing helper lemmas -/

theorem dropWhile_of_false {q : Char → Bool} {l : List Char}
    (h : ∀ c ∈ l, q c = false) : l.dropWhile q = l := by
  induction l with
  | nil => rfl
  | cons c r ih =>
    rw [List.dropWhile_cons, h c (List.mem_cons_self c r)]
    simp

theorem stripWs_of_no_space {l : List Char} (h : ∀ c ∈ l, isPySpace c = false) :
    stripWs l = l := by
  unfold stripWs
  rw [dropWhile_of_false h,
    dropWhile_of_false (fun c hc => h c (List.mem_reverse.mp hc)),
    List.reverse_reverse]

theorem stripSign_of_ne {c : Char} {r : List Char} (h1 : c ≠ '+')
    (h2 : c ≠ '-') : stripSign (c :: r) = (1, c :: r) := by
  rw [stripSign.eq_def]
  simp only []
  rw [if_neg h1, if_neg h2]

theorem dropPrefix0x_of_ne {a b : Char} {r : List Char}
    (h : ¬(a = '0' ∧ (b = 'x' ∨ b = 'X'))) :
    dropPrefix0x (a :: b :: r) = a :: b :: r := by
  rw [dropPrefix0x.eq_def]
  simp only []
  rw [if_neg h]

theorem digitsTail_all {isD : Char → Bool} (hu : isD '_' = false) :
    ∀ {l : List Char}, (∀ c ∈ l, isD c = true) → digitsTail isD l = true := by
  intro l
  induction l with
  | nil => intro _; rfl
  | cons c r ih =>
    intro h
    have hc := h c (List.mem_cons_self c r)
    have hne : c ≠ '_' := by
      intro he
      rw [he, hu] at hc
      cases hc
    rw [digitsTail.eq_def]
    simp only []
    rw [if_neg hne, hc, ih (fun d hd => h d (List.mem_cons_of_mem c hd))]
    rfl

theorem digitsOk_all {isD : Char → Bool} (hu : isD '_' = false)
    {l : List Char} (hne : l ≠ []) (h : ∀ c ∈ l, isD c = true) :
    digitsOk isD l = true := by
  cases l with
  | nil => exact absurd rfl hne
  | cons c r =>
    rw [digitsOk.eq_def]
    simp only []
    rw [h c (List.mem_cons_self c r),
      digitsTail_all hu (fun d hd => h d (List.mem_cons_of_mem c hd))]
    rfl

theorem pyInt10_digits {l : List Char} (hne : l ≠ [])
    (h : ∀ c ∈ l, isDecDigit c = true) :
    pyInt10 l = some ((digitsVal 10 l : Nat) : Int) := by
  cases l with
  | nil => exact absurd rfl hne
  | cons c r =>
    have hc := h c (List.mem_cons_self c r)
    have h1 : c ≠ '+' := ne_of_isDecDigit hc (by decide)
    have h2 : c ≠ '-' := ne_of_isDecDigit hc (by decide)
    simp only [pyInt10, stripWs_of_no_space (fun d hd => isDecDigit_not_space (h d hd)),
      stripSign_of_ne h1 h2, digitsOk_all (by decide) (by simp) h]
    simp

theorem pyInt16_pair {x y : Char} (hx : isHexDigit x = true)
    (hy : isHexDigit y = true) :
    pyInt16 [x, y] = some ((16 * digitVal x + digitVal y : Nat) : Int) := by
  have hall : ∀ c ∈ [x, y], isPySpace c = false := by
    intro c hc
    rcases List.mem_cons.mp hc with h | h
    · exact h ▸ isHexDigit_not_space hx
    · rcases List.mem_cons.mp h with h2 | h2
      · exact h2 ▸ isHexDigit_not_space hy
      · cases h2
  have hx1 : x ≠ '+' := ne_of_isHexDigit hx (by decide)
  have hx2 : x ≠ '-' := ne_of_isHexDigit hx (by decide)
  have hpre : ¬(x = '0' ∧ (y = 'x' ∨ y = 'X')) := by
    rintro ⟨_, hy2 | hy2⟩
    · exact ne_of_isHexDigit hy (by decide) hy2
    · exact ne_of_isHexDigit hy (by decide) hy2
  have hdig : ∀ c ∈ [x, y], isHexDigit c = true := by
    intro c hc
    rcases List.mem_cons.mp hc with h | h
    · exact h ▸ hx
    · rcases List.mem_cons.mp h with h2 | h2
      · exact h2 ▸ hy
      · cases h2
  have hxu : x ≠ '_' := ne_of_isHexDigit hx (by decide)
  have hyu : y ≠ '_' := ne_of_isHexDigit hy (by decide)
  simp only [pyInt16, stripWs_of_no_space hall, stripSign_of_ne hx1 hx2,
    dropPrefix0x_of_ne hpre, digitsOk_all (by decide) (by simp) hdig,
    digitsVal, List.foldl_cons, List.foldl_nil, if_neg hxu, if_neg hyu]
  simp
  omega

/-! ### splitX helper lemmas -/

theorem splitX_no_x {l : List Char} (h : 'x' ∉ l) : splitX l = [l] := by
  induction l with
  | nil => rfl
  | cons c r ih =>
    have hc : c ≠ 'x' := fun he => h (he ▸ List.mem_cons_self c r)
    rw [splitX.eq_def]
    simp only []
    rw [if_neg hc, ih (fun hm => h (List.mem_cons_of_mem c hm))]

theorem splitX_append {a : List Char} (b : List Char) (ha : 'x' ∉ a) :
    splitX (a ++ 'x' :: b) = a :: splitX b := by
  induction a with
  | nil =>
    rw [List.nil_append, splitX.eq_def]
    simp
  | cons c r ih =>
    have hc : c ≠ 'x' := fun he => ha (he ▸ List.mem_cons_self c r)
    rw [List.cons_append, splitX.eq_def]
    simp only []
    rw [if_neg hc, ih (fun hm => ha (List.mem_cons_of_mem c hm))]

theorem map_pyLower_of_digits {l : List Char}
    (h : ∀ c ∈ l, isDecDigit c = true) : l.map pyLowerChar = l := by
  induction l with
  | nil => rfl
  | cons c r ih =>
    rw [List.map_cons, pyLowerChar_of_digit (h c (List.mem_cons_self c r)),
      ih (fun d hd => h d (List.mem_cons_of_mem c hd))]

theorem not_x_of_digits {l : List Char} (h : ∀ c ∈ l, isDecDigit c = true) :
    'x' ∉ l := by
  intro hm
  have := h 'x' hm
  cases this

/-! ### Claim theorems: CanvasResolver resolution parsing (C5) -/

/-- C5 counterexample: the claim says zero or negative halves fail with
`InvalidResolutionFormat` and that no Dimensions with a zero or negative
component is ever returned.  In the code `parse_resolution` only runs
`int()` on the two halves: `"0x10"` parses to `(0, 10)` and `"-5x10"` to
`(-5, 10)`, with no error. -/
theorem parse_resolution_nonpositive_counterexample :
    parse_resolution "0x10" = .ok (0, 10) ∧
      parse_resolution "-5x10" = .ok (-5, 10) := by
  constructor
  · decide
  · decide

/-- C5 (amended): parsing lowercases the string and splits on the literal
separator `x`; when both halves are (nonempty) digit strings the parsed pair
is returned — including zero — with no positivity check; an input with no
separator fails with `InvalidResolutionFormat` (the
`argparse.ArgumentTypeError` of lines 42-44); and every successful parse is
exactly the Python `int()` value of the two halves, whatever their sign. -/
theorem parse_resolution_spec :
    (∀ (a b : List Char), a ≠ [] → b ≠ [] →
        (∀ c ∈ a, isDecDigit c = true) → (∀ c ∈ b, isDecDigit c = true) →
        parse_resolution (String.mk (a ++ 'x' :: b)) =
          .ok (((digitsVal 10 a : Nat) : Int), ((digitsVal 10 b : Nat) : Int)))
  ∧ (∀ s : String, 'x' ∉ s.data.map pyLowerChar →
        parse_resolution s = .error (.ArgumentTypeError resolutionErrMsg))
  ∧ (∀ (s : String) (w h : Int), parse_resolution s = .ok (w, h) →
        ∃ a b, splitX (s.data.map pyLowerChar) = [a, b] ∧
          pyInt10 a = some w ∧ pyInt10 b = some h) := by
  refine ⟨?_, ?_, ?_⟩
  · intro a b ha hb hda hdb
    have hmap : (a ++ 'x' :: b).map pyLowerChar = a ++ 'x' :: b := by
      rw [List.map_append, List.map_cons, map_pyLower_of_digits hda,
        map_pyLower_of_digits hdb]
      rfl
    have hsplit : splitX (a ++ 'x' :: b) = [a, b] := by
      rw [splitX_append b (not_x_of_digits hda), splitX_no_x (not_x_of_digits hdb)]
    simp only [parse_resolution, hmap, hsplit, pyInt10_digits ha hda,
      pyInt10_digits hb hdb]
  · intro s hx
    simp only [parse_resolution, splitX_no_x hx]
  · intro s w h hok
    simp only [parse_resolution] at hok
    split at hok
    · rename_i a b heq
      split at hok
      · rename_i w' h' hA hB
        injection hok with h1
        have hw : w' = w := congrArg Prod.fst h1
        have hh : h' = h := congrArg Prod.snd h1
        exact ⟨a, b, heq, by rw [hA, hw], by rw [hB, hh]⟩
      · cases hok
    · cases hok

/-- C5 witness: the amended parsing theorem applied at the digit halves
`"7"` and `"9"`. -/
theorem parse_resolution_spec_witness : parse_resolution "7x9" = .ok (7, 9) := by
  have h := parse_resolution_spec.1 ['7'] ['9'] (by decide) (by decide)
    (by decide) (by decide)
  exact h.trans (by decide)

/-! ### ColorParser helper lemmas and claim theorems (C6, C7, C10) -/

theorem hex_core_ok {x1 x2 y1 y2 z1 z2 : Char}
    (h1 : isHexDigit x1 = true) (h2 : isHexDigit x2 = true)
    (h3 : isHexDigit y1 = true) (h4 : isHexDigit y2 = true)
    (h5 : isHexDigit z1 = true) (h6 : isHexDigit z2 = true) :
    hex_to_rgb_core [x1, x2, y1, y2, z1, z2] =
      .ok (((16 * digitVal x1 + digitVal x2 : Nat) : Int),
        ((16 * digitVal y1 + digitVal y2 : Nat) : Int),
        ((16 * digitVal z1 + digitVal z2 : Nat) : Int)) := by
  have e : hex_to_rgb_core [x1, x2, y1, y2, z1, z2] =
      (match pyInt16 [x1, x2], pyInt16 [y1, y2], pyInt16 [z1, z2] with
        | some r, some g, some b => Except.ok (r, g, b)
        | _, _, _ => Except.error PyErr.ValueError) := rfl
  rw [e, pyInt16_pair h1 h2, pyInt16_pair h3 h4, pyInt16_pair h5 h6]

/-- C6: for every token whose stripped form is three valid hex digits,
`hex_to_rgb` yields the same result as on the digit-doubled 6-digit token,
and that result is the successfully parsed color triple. -/
theorem hex_to_rgb_three_digit_doubling (s : String) (p q r : Char)
    (hs : s.data.dropWhile (fun c => c = '#') = [p, q, r])
    (hp : isHexDigit p = true) (hq : isHexDigit q = true)
    (hr : isHexDigit r = true) :
    hex_to_rgb s = hex_to_rgb (String.mk [p, p, q, q, r, r]) ∧
      hex_to_rgb s = .ok (((16 * digitVal p + digitVal p : Nat) : Int),
        ((16 * digitVal q + digitVal q : Nat) : Int),
        ((16 * digitVal r + digitVal r : Nat) : Int)) := by
  have e1 : hex_to_rgb s = hex_to_rgb_core [p, q, r] := by
    unfold hex_to_rgb
    rw [hs]
  have e2 : hex_to_rgb_core [p, q, r] = hex_to_rgb_core [p, p, q, q, r, r] := rfl
  have hp2 : p ≠ '#' := ne_of_isHexDigit hp (by decide)
  have e3 : (String.mk [p, p, q, q, r, r]).data.dropWhile (fun c => c = '#') =
      [p, p, q, q, r, r] := by
    show List.dropWhile (fun c => decide (c = '#')) (p :: [p, q, q, r, r]) = _
    rw [List.dropWhile_cons, if_neg (by simp [hp2])]
  constructor
  · rw [e1, e2]
    unfold hex_to_rgb
    rw [e3]
  · rw [e1, e2]
    exact hex_core_ok hp hp hq hq hr hr

/-- C6 witness: `"abc"` parses to the same triple as `"aabbcc"`,
namely `(170, 187, 204)`. -/
theorem hex_to_rgb_three_digit_doubling_witness :
    hex_to_rgb "abc" = hex_to_rgb "aabbcc" ∧
      hex_to_rgb "abc" = .ok (170, 187, 204) := by
  have h := hex_to_rgb_three_digit_doubling "abc" 'a' 'b' 'c' (by decide)
    (by decide) (by decide) (by decide)
  exact ⟨h.1, h.2.trans (by decide)⟩

/-- C7: for every token whose stripped length is neither 3 nor 6,
`hex_to_rgb` fails with the `InvalidColorFormat` error
(`argparse.ArgumentTypeError`), carrying the offending (stripped) token in
its message. -/
theorem hex_to_rgb_wrong_length (s : String)
    (h3 : (s.data.dropWhile (fun c => c = '#')).length ≠ 3)
    (h6 : (s.data.dropWhile (fun c => c = '#')).length ≠ 6) :
    hex_to_rgb s = .error (.ArgumentTypeError
      ("Invalid color format: " ++
        String.mk (s.data.dropWhile (fun c => c = '#')))) := by
  simp only [hex_to_rgb, hex_to_rgb_core]
  rw [if_neg h3, if_pos h6]

/-- C7 witness: the 4-digit token `"abcd"` is rejected with
`Invalid color format: abcd`. -/
theorem hex_to_rgb_wrong_length_witness :
    hex_to_rgb "abcd" = .error (.ArgumentTypeError "Invalid color format: abcd") := by
  have h := hex_to_rgb_wrong_length "abcd" (by decide) (by decide)
  exact h.trans (by decide)

/-- C10 counterexample: the claim says every length-6 stripped token with a
non-hex character fails with `ValueError`.  But `"-12345"` contains the
non-hex character `-`, and Python `int("-1", 16)` accepts the sign, so the
parse succeeds and even returns a negative channel: `(-1, 35, 69)`. -/
theorem hex_to_rgb_sign_counterexample :
    hex_to_rgb "-12345" = .ok (-1, 35, 69) := by decide

/-- C10 (amended): for every token of stripped length exactly 6,
`hex_to_rgb` never fails with `InvalidColorFormat`: it either returns a
parsed triple (possible even with non-hex sign or whitespace characters,
which Python `int(_, 16)` accepts) or fails with the distinct `ValueError`
from base-16 parsing of a 2-character group. -/
theorem hex_to_rgb_len6_no_format_error (s : String)
    (h6 : (s.data.dropWhile (fun c => c = '#')).length = 6) :
    (∃ t, hex_to_rgb s = .ok t) ∨ hex_to_rgb s = .error .ValueError := by
  simp only [hex_to_rgb, hex_to_rgb_core]
  rw [if_neg (by simp [h6]), if_neg (by simp [h6])]
  generalize pyInt16 ((s.data.dropWhile (fun c => c = '#')).take 2) = oa
  generalize pyInt16 (((s.data.dropWhile (fun c => c = '#')).drop 2).take 2) = ob
  generalize pyInt16 (((s.data.dropWhile (fun c => c = '#')).drop 4).take 2) = oc
  rcases oa with _ | r <;> rcases ob with _ | g <;> rcases oc with _ | b <;>
    first
      | exact Or.inl ⟨_, rfl⟩
      | exact Or.inr rfl

/-- C10 witness: the amended theorem applied to the all-non-hex length-6
token `"zzzzzz"`. -/
theorem hex_to_rgb_len6_no_format_error_witness :
    (∃ t, hex_to_rgb "zzzzzz" = .ok t) ∨
      hex_to_rgb "zzzzzz" = .error .ValueError :=
  hex_to_rgb_len6_no_format_error "zzzzzz" (by decide)

/-! ### GridFitter claim theorems (C1, C3, C4) -/

/-- C1: for positive cell dimensions, the grid size passed to the external
converter is exactly `(floor(canvas_w / cell_w), floor(canvas_h / cell_h))`,
and the `--dimensions` argument string renders those two numbers,
columns first. -/
theorem gridDims_floor (cw ch a b : Int) (ha : 0 < a) (hb : 0 < b) :
    gridDims cw ch a b = .ok (cw.fdiv a, ch.fdiv b) ∧
      asciiDimsArg cw ch a b =
        .ok (toString (cw.fdiv a) ++ "," ++ toString (ch.fdiv b)) := by
  have ha' : a ≠ 0 := ha.ne'
  have hb' : b ≠ 0 := hb.ne'
  have h1 : gridDims cw ch a b = .ok (cw.fdiv a, ch.fdiv b) := by
    simp [gridDims, pydiv, ha', hb', Bind.bind, Except.bind, Pure.pure, Except.pure]
  exact ⟨h1, by simp [asciiDimsArg, h1, Bind.bind, Except.bind, Pure.pure, Except.pure]⟩

/-- C1 witness: canvas 100×50 with cell size 20×25 resolves to 5 columns and
2 rows, and the converter is passed the string `"5,2"`. -/
theorem gridDims_floor_witness :
    gridDims 100 50 20 25 = .ok (5, 2) ∧ asciiDimsArg 100 50 20 25 = .ok "5,2" := by
  have h := gridDims_floor 100 50 20 25 (by decide) (by decide)
  exact ⟨h.1.trans (by decide), h.2.trans (by decide)⟩

/-- C3 counterexample: the claim says a canvas smaller than one cell fails
with `CanvasTooSmall`.  The code has no such check: for canvas 10×10 and cell
20×25 the computation succeeds, yielding grid `(0, 0)`, and the string
`"0,0"` is passed to the external converter. -/
theorem gridDims_zero_counterexample :
    gridDims 10 10 20 25 = .ok (0, 0) ∧ asciiDimsArg 10 10 20 25 = .ok "0,0" := by
  constructor
  · decide
  · decide

/-- C3 (amended): no `CanvasTooSmall` failure exists in the code — for every
canvas and positive cell size the grid computation succeeds (a zero dimension
is passed on to the converter); the second half of the claim does hold: when
the canvas is at least one cell in each axis, neither grid dimension is 0. -/
theorem gridDims_positive (cw ch a b : Int) (ha : 0 < a) (hb : 0 < b) :
    gridDims cw ch a b = .ok (cw.fdiv a, ch.fdiv b) ∧
      (a ≤ cw → 1 ≤ cw.fdiv a) ∧ (b ≤ ch → 1 ≤ ch.fdiv b) := by
  have h1 : gridDims cw ch a b = .ok (cw.fdiv a, ch.fdiv b) := by
    simp [gridDims, pydiv, ha.ne', hb.ne', Bind.bind, Except.bind, Pure.pure, Except.pure]
  refine ⟨h1, ?_, ?_⟩
  · intro hcw
    rw [Int.fdiv_eq_ediv cw (le_of_lt ha)]
    exact (Int.le_ediv_iff_mul_le ha).mpr (by simpa using hcw)
  · intro hch
    rw [Int.fdiv_eq_ediv ch (le_of_lt hb)]
    exact (Int.le_ediv_iff_mul_le hb).mpr (by simpa using hch)

/-- C3 witness: the amended theorem at canvas 100×50, cell 20×25: the
computation succeeds and both grid dimensions are at least 1. -/
theorem gridDims_positive_witness :
    gridDims 100 50 20 25 = .ok (Int.fdiv 100 20, Int.fdiv 50 25) ∧
      1 ≤ Int.fdiv 100 20 ∧ 1 ≤ Int.fdiv 50 25 := by
  have h := gridDims_positive 100 50 20 25 (by decide) (by decide)
  exact ⟨h.1, h.2.1 (by decide), h.2.2 (by decide)⟩

/-- C4 counterexample: the claim says cell metrics are validated before the
grid-fitting division, failing with `DegenerateFontMetrics` on a zero
dimension.  The code has no validation: with a degenerate bounding box
(zero width) the floor division is attempted with a zero divisor and raises
`ZeroDivisionError`. -/
theorem gridFromBbox_zero_counterexample :
    gridFromBbox 1920 1080 0 0 0 12 = .error .ZeroDivisionError := by decide

/-- C4 (amended): no `DegenerateFontMetrics` validation exists — whenever
the measured bounding box has zero width or zero height, the grid-fitting
floor division is reached with a zero divisor and raises
`ZeroDivisionError`. -/
theorem gridFromBbox_zero_cell (cw ch x0 y0 x1 y1 : Int)
    (h : x1 - x0 = 0 ∨ y1 - y0 = 0) :
    gridFromBbox cw ch x0 y0 x1 y1 = .error .ZeroDivisionError := by
  unfold gridFromBbox cellMetrics gridDims pydiv
  rcases h with h | h
  · simp [h, Bind.bind, Except.bind, Pure.pure, Except.pure]
  · by_cases hw : x1 - x0 = 0
    · simp [hw, Bind.bind, Except.bind, Pure.pure, Except.pure]
    · simp [hw, h, Bind.bind, Except.bind, Pure.pure, Except.pure]

/-- C4 witness: the amended theorem at a bounding box of height 25 but
width 0. -/
theorem gridFromBbox_zero_cell_witness :
    gridFromBbox 100 50 3 7 3 32 = .error .ZeroDivisionError :=
  gridFromBbox_zero_cell 100 50 3 7 3 32 (Or.inl (by decide))

/-! ### CanvasResolver preset claim theorem (C8) -/

/-- C8: each preset name resolves to exactly its documented pixel pair, and
every other name is rejected. -/
theorem PRESETS_spec :
    PRESETS "1080p" = some (1920, 1080) ∧ PRESETS "720p" = some (1280, 720) ∧
      PRESETS "4k" = some (3840, 2160) ∧
      ∀ s : String, s ≠ "1080p" → s ≠ "720p" → s ≠ "4k" → PRESETS s = none := by
  refine ⟨rfl, rfl, rfl, ?_⟩
  intro s h1 h2 h3
  unfold PRESETS
  rw [if_neg h1, if_neg h2, if_neg h3]

/-- C8 witness: the non-preset name `"900p"` is rejected. -/
theorem PRESETS_spec_witness : PRESETS "900p" = none :=
  PRESETS_spec.2.2.2 "900p" (by decide) (by decide) (by decide)

/-! ### Rasterizer helper lemmas and claim theorem (C2) -/

theorem drawLoop_length (F : Type) (ch : Int) (font : F) (fg : Int × Int × Int) :
    ∀ (i : Nat) (l : List String), (drawLoop F ch font fg i l).length = l.length := by
  intro i l
  induction l generalizing i with
  | nil => rfl
  | cons s r ih =>
    simp only [drawLoop, List.length_cons, ih]

theorem drawLoop_getElem (F : Type) (ch : Int) (font : F) (fg : Int × Int × Int) :
    ∀ (l : List String) (i j : Nat),
      (drawLoop F ch font fg i l)[j]? =
        l[j]?.map (fun s => ⟨0, ((i + j : Nat) : Int) * ch, s, font, fg⟩) := by
  intro l
  induction l with
  | nil => intro i j; rfl
  | cons s r ih =>
    intro i j
    cases j with
    | zero => simp [drawLoop]
    | succ j' =>
      simp only [drawLoop, List.getElem?_cons_succ, ih (i + 1) j']
      have : i + 1 + j' = i + (j' + 1) := by omega
      rw [this]

/-- C2: the rasterizer issues exactly one `draw.text` call per row of the
text grid, and the call for 0-based row `j` is at pixel position
`(x = 0, y = j * char_h)` with the given text line, loaded font, and
foreground color — no other offsets. -/
theorem drawAscii_calls (F : Type) (lines : List String) (ch : Int) (font : F)
    (fg : Int × Int × Int) :
    (drawAscii F lines ch font fg).length = lines.length ∧
      ∀ (j : Nat) (line : String), lines[j]? = some line →
        (drawAscii F lines ch font fg)[j]? =
          some ⟨0, (j : Int) * ch, line, font, fg⟩ := by
  constructor
  · exact drawLoop_length F ch font fg 0 lines
  · intro j line hl
    unfold drawAscii
    rw [drawLoop_getElem F ch font fg lines 0 j, hl]
    simp

/-- C2 witness: for the two-row grid `["ab", "cd"]` with cell height 7, the
second drawn line (row index 1) is at `(0, 7)`. -/
theorem drawAscii_calls_witness :
    (drawAscii Unit ["ab", "cd"] 7 () (255, 0, 0))[1]? =
      some ⟨0, 7, "cd", (), (255, 0, 0)⟩ := by
  have h := (drawAscii_calls Unit ["ab", "cd"] 7 () (255, 0, 0)).2 1 "cd" rfl
  exact h.trans (by decide)

/-! ### Output-path fallback claim theorems (C9) -/

/-- C9 counterexample: the claim says that with an existing but unwritable
parent directory the program does not fail and the run proceeds.  But if the
fallback path `cwd/name` is itself an existing directory, the very next
check exits: with parent existing, unwritable, and `/cwd/a.png` an existing
directory, `resolveOutput` terminates with the `sys.exit(1)` path. -/
theorem resolveOutput_fallback_dir_counterexample :
    resolveOutput ⟨true, false, fun p => p == "/cwd/a.png"⟩ "/out" "a.png" "/cwd" =
      .error (.SysExit "Invalid path: /cwd/a.png is a directory") := by decide

/-- C9 (amended): when the parent directory exists but is not writable, the
program warns and redirects the output path to `cwd/name`, and the run
proceeds provided that redirected path is not an existing directory;
moreover the warning fallback is taken exactly when the parent is
unwritable — it is the only recovered condition. -/
theorem resolveOutput_fallback_spec (fs : FS) (parent name cwd : String) :
    (fs.parentExists = true → fs.parentWritable = false →
        fs.isExistingDir (cwd ++ "/" ++ name) = false →
        resolveOutput fs parent name cwd = .ok (cwd ++ "/" ++ name, true)) ∧
      (∀ q w, resolveOutput fs parent name cwd = .ok (q, w) →
        (w = true ↔ fs.parentWritable = false)) := by
  constructor
  · intro h1 h2 h3
    simp [resolveOutput, h1, h2, h3]
  · intro q w hok
    unfold resolveOutput at hok
    by_cases he : fs.parentExists = false
    · rw [if_pos he] at hok
      cases hok
    · rw [if_neg he] at hok
      by_cases hw : fs.parentWritable = false
      · rw [if_pos hw] at hok
        by_cases hd : fs.isExistingDir (cwd ++ "/" ++ name) = true
        · rw [if_pos hd] at hok
          cases hok
        · rw [if_neg hd] at hok
          injection hok with h1
          have : w = true := congrArg Prod.snd h1.symm
          simp [this, hw]
      · rw [if_neg hw] at hok
        by_cases hd : fs.isExistingDir (parent ++ "/" ++ name) = true
        · rw [if_pos hd] at hok
          cases hok
        · rw [if_neg hd] at hok
          injection hok with h1
          have hwf : w = false := congrArg Prod.snd h1.symm
          constructor
          · intro hwt
            rw [hwt] at hwf
            cases hwf
          · intro hpw
            exact absurd hpw hw

/-- C9 witness: with parent existing but unwritable and no directory in the
way, the run recovers: output goes to `/cwd/a.png` with the warning flag. -/
theorem resolveOutput_fallback_spec_witness :
    resolveOutput ⟨true, false, fun _ => false⟩ "/out" "a.png" "/cwd" =
      .ok ("/cwd/a.png", true) := by
  have h := (resolveOutput_fallback_spec ⟨true, false, fun _ => false⟩
    "/out" "a.png" "/cwd").1 rfl rfl rfl
  exact h.trans (by decide)

end AsciiImgRender
